import Mathlib

/-!
The program watchit: monitor and record successful open() calls.

A shallow embedding of `watchit.c` (the supervisor) and `libwatchit.c` (the
preload library), with the properties of the tracing pipeline stated over it.

Conventions of the embedding.

* A C string is a list of characters (`CStr`); the terminating NUL is implicit
  except inside the explicit buffer of `read_line`, where it is stored.
* A nullable `char *` is an `Option CStr` (`none` is `NULL`).
* System calls are not run: their outcomes are inputs of the model (the result
  of `read`, `write`, `pselect`, `accept`, `fopen`, ...), a `write` that raises
  `SIGPIPE` and so does not return included.
* What an uninitialised local holds on entry is an input of the model as well
  (the `int ch` of `read_line`); integers wider than a byte are their bits on
  a little-endian machine.
-/

namespace Watchit

set_option maxRecDepth 200000

/-- A C string, without its terminating NUL. -/
abbrev CStr := List Char

/-- The NUL byte that terminates a C string. -/
def NUL : Char := Char.ofNat 0

/-- The C string a buffer holds: its bytes up to the first NUL. -/
def cstr (buf : List Char) : CStr := buf.takeWhile (fun c => c != NUL)

/-! ## watchit.c: read_line -/

/-- Outcome of one `read(fd, &ch, 1)` that does not hit end of file: one byte
(`n == 1`) or a failure (`n < 0`). End of file (`n == 0`) is the end of the
list of outcomes a descriptor carries. -/
inductive ReadEv where
  | byte (ch : Char)
  | error
  deriving DecidableEq, Repr

/-- What a call of `read_line` leaves behind: the returned value, the buffer
memory, the outcomes of `read` not yet consumed, and (ghost) the buffer
indices written through `p`, in program order. -/
structure ReadLine where
  rc : Int
  buf : List Char
  rest : List ReadEv
  stores : List Nat
  deriving DecidableEq, Repr

/-- The value of an `int` whose 32 bits are `bits` (two's complement). -/
def int_of_bits (bits : Nat) : Int :=
  if bits % 4294967296 < 2147483648 then ((bits % 4294967296 : Nat) : Int)
  else ((bits % 4294967296 : Nat) : Int) - 4294967296

/-- The value of a `char` promoted to `int` for a comparison, `char` being
signed as on x86 Linux; a character below 128, as the newline `read_line` is
called with, has the same value where `char` is unsigned. -/
def int_of_char (c : Char) : Int :=
  if c.toNat % 256 < 128 then ((c.toNat % 256 : Nat) : Int)
  else ((c.toNat % 256 : Nat) : Int) - 256

/-- The bits of the local `int ch` after `read(fd, &ch, 1)` delivered the byte
`b`: `read` writes one byte, the first of the four of `ch` (the least
significant on a little-endian machine), and the other three keep what they
held. -/
def ch_after_read (ch : Nat) (b : Char) : Nat := ch / 256 * 256 + b.toNat % 256

/-- The two statements after the loop of `read_line`: `*p = 0; return n;`. -/
def read_line_finish (n : Int) (p : Nat) (buf : List Char) (fd : List ReadEv)
    (stores : List Nat) : ReadLine :=
  { rc := n, buf := buf.set p NUL, rest := fd, stores := stores ++ [p] }

/-- The `for (int i = 0; i < max_length; ++i)` loop of `read_line`. The first
argument counts the iterations still allowed (`max_length - i`); `p` is the
offset of the pointer `p` from `buf`, `n` the last value `read` returned, `ch`
the bits of the local `int ch`. The test `ch == terminator` compares the whole
`int`; `*p = ch` stores its low byte, the byte just read. -/
def read_line_loop (terminator : Char) :
    Nat → Nat → Nat → Int → Nat → List Char → List ReadEv → List Nat → ReadLine
  | 0, _, p, n, _, buf, fd, stores => read_line_finish n p buf fd stores
  | k + 1, i, p, _, ch, buf, fd, stores =>
    match fd with
    | ReadEv.byte b :: fd1 =>
      -- n == 1: *p = ch
      if int_of_bits (ch_after_read ch b) = int_of_char terminator then
        read_line_finish 1 p (buf.set p b) fd1 (stores ++ [p])
      else
        read_line_loop terminator k (i + 1) (p + 1) 1 (ch_after_read ch b) (buf.set p b) fd1
          (stores ++ [p])
    | [] =>
      -- n == 0: end of file
      if i = 0 then
        { rc := 0, buf := buf, rest := [], stores := stores }
      else
        read_line_finish 0 p buf [] stores
    | ReadEv.error :: fd1 =>
      { rc := -1, buf := buf, rest := fd1, stores := stores }

/-- Embedding of `read_line(fd, buf, max_length, terminator)`. The locals `n`
and `ch` are uninitialised in C. `ch0` is the bits `int ch` holds on entry,
whatever the stack held. `n` is returned unset only when `max_length <= 0`;
the model starts it at 0. -/
def read_line (ch0 : Nat) (fd : List ReadEv) (buf : List Char) (max_length : Nat)
    (terminator : Char) : ReadLine :=
  read_line_loop terminator max_length 0 0 0 ch0 buf fd []

/-! ## libwatchit.c: write_sock, wrap_open, wrap_open64 -/

/-- Outcome of one `write` on the socket: it returns a value (the count of
bytes written, or -1), or the peer has closed the connection and the `SIGPIPE`
the call raises, which the library neither blocks nor handles, terminates the
process. -/
inductive WriteRes where
  | returned (n : Int)
  | sigpipe
  deriving DecidableEq, Repr

/-- What a call of `write_sock` does: it returns a value, or the process is
terminated inside one of its `write` calls; either way `sent` is what reached
the socket. -/
inductive WriteSock where
  | returned (rc : Int) (sent : List Char)
  | killed (sent : List Char)
  deriving DecidableEq, Repr

/-- The bytes that reached the socket during a call of `write_sock`. -/
def WriteSock.sent : WriteSock → List Char
  | WriteSock.returned _ sent => sent
  | WriteSock.killed sent => sent

/-- The bytes a `write(fd, data, count)` that returned `w` put on the
descriptor: the first `w` bytes of `data` (none when it failed). -/
def written (data : List Char) (w : Int) : List Char := data.take w.toNat

/-- Embedding of `write_sock(sock, name)`. `w1` and `w2` are the outcomes of
the two `write` calls: `write(sock, name, strlen(name))` and
`write(sock, "\n", 1)`. -/
def write_sock (name : CStr) (w1 w2 : WriteRes) : WriteSock :=
  match w1 with
  | WriteRes.sigpipe => WriteSock.killed []
  | WriteRes.returned n1 =>
    if n1 < 0 then
      WriteSock.returned (-1) []
    else
      match w2 with
      | WriteRes.sigpipe => WriteSock.killed (written name n1)
      | WriteRes.returned n2 =>
        if n2 < 0 then
          WriteSock.returned (-1) (written name n1)
        else
          WriteSock.returned 0 (written name n1 ++ written ['\n'] n2)

/-- Outcome of a call of a wrapper: it returns, it reads a variadic argument
the caller did not pass (undefined behaviour), or the process is terminated
by `SIGPIPE` inside the report. -/
inductive Variadic (α : Type) where
  | ok (a : α)
  | va_arg_past_end
  | sigpipe
  deriving DecidableEq, Repr

/-- Embedding of `va_start(args, flags); mode = va_arg(args, mode_t);`: the
variadic arguments the caller passed are a list, and reading one from the
empty list is undefined behaviour. -/
def va_arg (args : List Nat) : Variadic Nat :=
  match args with
  | [] => Variadic.va_arg_past_end
  | mode :: _ => Variadic.ok mode

/-- What a wrapper call does besides returning: the names it handed to
`write_sock`, and the bytes that reached the socket. -/
structure WrapOpen where
  rc : Int
  reports : List CStr
  sent : List Char
  deriving DecidableEq, Repr

/-- Embedding of `wrap_open(name, flags, ...)`. `orig_open` is the libc `open`
resolved by `_init`; `w1 w2` are the outcomes of the two `write` calls inside
`write_sock`, whose own result is discarded by the `(void)` cast. -/
def wrap_open (orig_open : CStr → Int → Nat → Int) (w1 w2 : WriteRes)
    (name : CStr) (flags : Int) (args : List Nat) : Variadic WrapOpen :=
  match va_arg args with
  | Variadic.va_arg_past_end => Variadic.va_arg_past_end
  | Variadic.sigpipe => Variadic.sigpipe
  | Variadic.ok mode =>
    let rc := orig_open name flags mode
    if rc ≥ 0 then
      match write_sock name w1 w2 with
      | WriteSock.returned _ sent => Variadic.ok { rc := rc, reports := [name], sent := sent }
      | WriteSock.killed _ => Variadic.sigpipe
    else
      Variadic.ok { rc := rc, reports := [], sent := [] }

/-- Embedding of `wrap_open64(name, flags, ...)`: the same body over
`orig_open64`. -/
def wrap_open64 (orig_open64 : CStr → Int → Nat → Int) (w1 w2 : WriteRes)
    (name : CStr) (flags : Int) (args : List Nat) : Variadic WrapOpen :=
  match va_arg args with
  | Variadic.va_arg_past_end => Variadic.va_arg_past_end
  | Variadic.sigpipe => Variadic.sigpipe
  | Variadic.ok mode =>
    let rc := orig_open64 name flags mode
    if rc ≥ 0 then
      match write_sock name w1 w2 with
      | WriteSock.returned _ sent => Variadic.ok { rc := rc, reports := [name], sent := sent }
      | WriteSock.killed _ => Variadic.sigpipe
    else
      Variadic.ok { rc := rc, reports := [], sent := [] }

/-! ## watchit.c: the result set (a GHashTable keyed by string equality) -/

/-- The `GHashTable *ht` created with `g_hash_table_new(g_str_hash,
g_str_equal)`: its keys, pairwise different as strings. Every value is the
constant `"1"` and is never read, so only the keys are kept. -/
structure GHashTable where
  keys : List CStr
  deriving DecidableEq, Repr

/-- Embedding of `g_hash_table_new(g_str_hash, g_str_equal)`. -/
def g_hash_table_new : GHashTable := { keys := [] }

/-- Embedding of `g_hash_table_insert(ht, g_strdup(buf), "1")`: a key equal
(by `g_str_equal`) to a stored one only replaces the value. -/
def g_hash_table_insert (ht : GHashTable) (key : CStr) : GHashTable :=
  if key ∈ ht.keys then ht else { keys := ht.keys ++ [key] }

/-- Embedding of `g_hash_table_foreach(ht, func, udata)`: `func` is called once
per stored key. glib leaves the order unspecified; `order` is the order this
table happens to use. -/
def g_hash_table_foreach {σ : Type} (order : List CStr → List CStr) (ht : GHashTable)
    (func : CStr → σ → σ) (udata : σ) : σ :=
  (order ht.keys).foldl (fun u key => func key u) udata

/-! ## watchit.c: iterator, write_results -/

/-- The struct `user_data`. `fh` is the text written so far to the open
`FILE *`. -/
structure user_data where
  fh : List Char
  cwd_prefix : Option CStr
  fn_glob : Option CStr
  deriving DecidableEq, Repr

/-- The condition `ud->fn_glob != NULL && fnmatch(ud->fn_glob, name, 0)`. -/
def glob_rejects (fnmatch : CStr → CStr → Int → Int) (fn_glob : Option CStr)
    (name : CStr) : Bool :=
  match fn_glob with
  | none => false
  | some g => fnmatch g name 0 != 0

/-- The condition `ud-> cwd_prefix != NULL && name[0] != '/'`; `name[0]` of the
empty string is its NUL. -/
def wants_prefix (dir : Option CStr) (name : CStr) : Bool :=
  dir.isSome && name.headD NUL != '/'

/-- Embedding of `iterator(key, value, udata)`; `fnmatch` is the libc
function. -/
def iterator (fnmatch : CStr → CStr → Int → Int) (key : CStr) (ud : user_data) :
    user_data :=
  if glob_rejects fnmatch ud.fn_glob key then
    ud
  else
    let ud1 : user_data :=
      if wants_prefix (user_data.cwd_prefix ud) key then
        { ud with fh := ud.fh ++ ((user_data.cwd_prefix ud).getD [] ++ ['/']) }
      else ud
    { ud1 with fh := ud1.fh ++ (key ++ ['\n']) }

/-- Embedding of `write_results(ht, output_path, udata)`: the return value and,
when `fopen(output_path, "w")` succeeded (`fopen_ok`), the text of the file
after `fclose`. -/
def write_results (fnmatch : CStr → CStr → Int → Int) (order : List CStr → List CStr)
    (ht : GHashTable) (fopen_ok : Bool) (udata : user_data) : Int × Option (List Char) :=
  if fopen_ok then
    (0, some (g_hash_table_foreach order ht (iterator fnmatch) { udata with fh := [] }).fh)
  else
    (-1, none)

/-- The line the specification asks for a path `p` that passed the filter:
`d`, a separator and `p` when `d` is set and `p` does not begin with `/`,
otherwise `p`; then a newline. -/
def report_line (d : Option CStr) (p : CStr) : List Char :=
  match d with
  | some dir => if p.head? = some '/' then p ++ ['\n'] else dir ++ ['/'] ++ p ++ ['\n']
  | none => p ++ ['\n']

/-- The text the specification asks the report to hold for one stored path
`p`, glob `g` and working directory `d`: nothing when `g` is set and does not
match the raw stored path, otherwise `report_line`. -/
def report_reference (fnmatch : CStr → CStr → Int → Int) (g d : Option CStr) (p : CStr) :
    List Char :=
  match g with
  | some pat => if fnmatch pat p 0 ≠ 0 then [] else report_line d p
  | none => report_line d p

/-- A model of libc `fnmatch(pattern, string, 0)` for patterns made of ordinary
characters, `?` and `*`: with no flag set `*` and `?` also match `/` and a
leading period. -/
def glob_match : List Char → List Char → Bool
  | [], s => s.isEmpty
  | c :: pat, s =>
    if c = '*' then
      s.tails.any (fun t => glob_match pat t)
    else
      match s with
      | [] => false
      | x :: t => (c = '?' || c = x) && glob_match pat t

/-- The libc `fnmatch` under `glob_match`: 0 on a match, `FNM_NOMATCH` (1)
otherwise. -/
def fnmatch_model (pattern string : CStr) (_flags : Int) : Int :=
  if glob_match pattern string then 0 else 1

/-! ## watchit.c: handle_children -/

/-- Embedding of `FD_SET(fd, &set)` on a descriptor set kept as a list. -/
def FD_SET (fd : Nat) (set : List Nat) : List Nat :=
  if fd ∈ set then set else set ++ [fd]

/-- Embedding of `FD_CLR(fd, &set)`. -/
def FD_CLR (fd : Nat) (set : List Nat) : List Nat :=
  set.filter (fun x => x != fd)

/-- The constant `FD_SETSIZE` of `<sys/select.h>`. -/
def FD_SETSIZE : Nat := 1024

/-- Outcome of the `accept` call on the listening socket: a new descriptor
together with everything its peer will send before closing, `EAGAIN`, or
another failure. -/
inductive Accept where
  | conn (newsock : Nat) (stream : List ReadEv)
  | eagain
  | fail
  deriving DecidableEq, Repr

/-- What one return of `pselect` shows the loop: the descriptors left in
`read_fd_set`, whether `errno == EINTR` holds afterwards, the outcomes of the
calls the iteration may make (`waitpid`, read only under `EINTR`; `accept`,
read only when the listening socket is serviced), and for each descriptor
`i` the bits `ch0 i` that the uninitialised `int ch` of `read_line` holds
when the iteration calls it for `i`. -/
structure Wakeup where
  read_fd_set : List Nat
  eintr : Bool
  waitpid : Int
  accept : Accept
  ch0 : Nat → Nat

/-- The state of `handle_children`: its locals `active_fd_set`, `buf`, `done`,
the table `ht`, and on the kernel side what each connected descriptor still
has to deliver (`conns`) and the descriptors passed to `close`. -/
structure Collector where
  active_fd_set : List Nat
  buf : List Char
  ht : GHashTable
  done : Bool
  conns : List (Nat × List ReadEv)
  closed : List Nat
  deriving DecidableEq, Repr

/-- How a run of `handle_children` ends: it returns `rc`, it leaves through
`handle_error(msg)` (`perror(msg); exit(EXIT_FAILURE)`), or `pselect` never
returns again. -/
inductive Outcome where
  | returned (rc : Int) (s : Collector)
  | exited (msg : String) (s : Collector)
  | blocked (s : Collector)
  deriving DecidableEq, Repr

/-- The collector state a run ends in. -/
def Outcome.state : Outcome → Collector
  | Outcome.returned _ s => s
  | Outcome.exited _ s => s
  | Outcome.blocked s => s

/-- The value `handle_children` returns, when it returns. -/
def Outcome.return_value : Outcome → Option Int
  | Outcome.returned rc _ => some rc
  | Outcome.exited _ _ => none
  | Outcome.blocked _ => none

/-- What descriptor `i` still has to deliver. -/
def pending (conns : List (Nat × List ReadEv)) (i : Nat) : List ReadEv :=
  (conns.lookup i).getD []

/-- The connections after descriptor `i` consumed input down to `rest`. -/
def consume (conns : List (Nat × List ReadEv)) (i : Nat) (rest : List ReadEv) :
    List (Nat × List ReadEv) :=
  conns.map (fun c => if c.1 = i then (i, rest) else c)

/-- The body of `if (FD_ISSET (i, &read_fd_set))` for one descriptor `i`: the
`accept` branch for the listening socket, the `read_line` branch with its
`switch (rc)` for a connected one. `path_max` is `PATH_MAX`, the size of
`buf`. An error is the message handed to `handle_error`. -/
def service_fd (sock path_max : Nat) (w : Wakeup) (i : Nat) (s : Collector) :
    Except String Collector :=
  if i = sock then
    match w.accept with
    | Accept.conn newsock stream =>
      Except.ok { s with active_fd_set := FD_SET newsock s.active_fd_set,
                         conns := (newsock, stream) :: s.conns }
    | Accept.eagain => Except.ok s
    | Accept.fail => Except.error "accept"
  else
    let r := read_line (w.ch0 i) (pending s.conns i) s.buf path_max '\n'
    let s1 : Collector := { s with buf := r.buf, conns := consume s.conns i r.rest }
    if r.rc = 0 then
      Except.ok { s1 with closed := s1.closed ++ [i],
                          active_fd_set := FD_CLR i s1.active_fd_set }
    else if r.rc = -1 then
      Except.ok s1
    else
      Except.ok { s1 with ht := g_hash_table_insert s1.ht (cstr r.buf) }

/-- The loop `for (int i = 0; i < FD_SETSIZE; ++i) if (FD_ISSET (i,
&read_fd_set)) ...` over the descriptors `is` still to visit. -/
def service_fds (sock path_max : Nat) (w : Wakeup) :
    List Nat → Collector → Except String Collector
  | [], s => Except.ok s
  | i :: is, s =>
    if i ∈ w.read_fd_set then
      match service_fd sock path_max w i s with
      | Except.ok s1 => service_fds sock path_max w is s1
      | Except.error msg => Except.error msg
    else
      service_fds sock path_max w is s

/-- The outer `for (;;)` of `handle_children`, one `Wakeup` per return of
`pselect`. -/
def handle_children_loop (sock path_max : Nat) : List Wakeup → Collector → Outcome
  | [], s => Outcome.blocked s
  | w :: ws, s =>
    if w.eintr && decide (w.waitpid < 0) then
      Outcome.exited "waitpid" s
    else
      let s1 : Collector := if w.eintr then { s with done := true } else s
      match service_fds sock path_max w (List.range FD_SETSIZE) s1 with
      | Except.error msg => Outcome.exited msg s1
      | Except.ok s2 =>
        if s2.done then Outcome.returned 0 s2
        else handle_children_loop sock path_max ws s2

/-- Embedding of `handle_children(child, sock, ht)`. `buf0` is the
uninitialised content of `char buf[PATH_MAX]`. -/
def handle_children (sock path_max : Nat) (buf0 : List Char) (ht : GHashTable)
    (ws : List Wakeup) : Outcome :=
  handle_children_loop sock path_max ws
    { active_fd_set := [sock], buf := buf0, ht := ht, done := false, conns := [], closed := [] }

/-- The accepted connections of a collector state that are still open: the
descriptors of `active_fd_set` other than the listening socket. -/
def open_connections (sock : Nat) (s : Collector) : List Nat :=
  s.active_fd_set.filter (fun fd => fd != sock)

/-- The constant `PATH_MAX` of `<sys/param.h>` on Linux, the size of the `buf`
of `handle_children`. -/
def PATH_MAX : Nat := 4096

/-! ## watchit.c: main, the option loop -/

/-- The settings the option loop of `main` writes: the locals `sock_path`,
`output_path`, `preload_path` and the `udata` fields (each a `char *`). -/
structure Settings where
  sock_path : Option CStr
  output_path : Option CStr
  preload_path : Option CStr
  cwd_prefix : Option CStr
  fn_glob : Option CStr
  deriving DecidableEq, Repr

/-- The enumerators `OPT_CWD, OPT_MATCH, OPT_OUTPUT, OPT_PRELOAD, OPT_SOCKET,
OPT_HELP` of the anonymous enum in `main`. -/
def OPT_CWD : Nat := 0

/-- Second enumerator. -/
def OPT_MATCH : Nat := 1

/-- Third enumerator. -/
def OPT_OUTPUT : Nat := 2

/-- Fourth enumerator. -/
def OPT_PRELOAD : Nat := 3

/-- Fifth enumerator. -/
def OPT_SOCKET : Nat := 4

/-- Sixth enumerator. -/
def OPT_HELP : Nat := 5

/-- One entry of `long_options`: name, whether it takes an argument, and
`val`; the `flag` member is `NULL` in every entry. -/
structure LongOption where
  name : String
  required_argument : Bool
  val : Int
  deriving DecidableEq, Repr

/-- The table `long_options` of `main`, without its all-zero last entry. -/
def long_options : List LongOption :=
  [ { name := "cwd", required_argument := false, val := 0 },
    { name := "match", required_argument := true, val := ('m').toNat },
    { name := "output", required_argument := true, val := ('o').toNat },
    { name := "preload", required_argument := true, val := OPT_PRELOAD },
    { name := "socket", required_argument := true, val := OPT_SOCKET },
    { name := "help", required_argument := false, val := ('h').toNat } ]

/-- What `getopt_long` returns for the long option at index `option_index` of
`long_options`: its `val`, because its `flag` is `NULL`. -/
def getopt_long_val (option_index : Nat) : Int :=
  match long_options.get? option_index with
  | some o => o.val
  | none => -1

/-- Result of one pass through the `switch (c)` of the option loop: the
settings for the next pass, or a call of `usage(msg)`, which ends the process
with `exit(64)`. -/
inductive Parsed where
  | next (s : Settings)
  | usage (msg : Option String)
  deriving DecidableEq, Repr

/-- Embedding of the `switch (c)` of the option loop in `main`, for the value
`c` returned by `getopt_long`, the `option_index` it stored and `optarg`;
`getcwd` is the result of `getcwd(NULL, 0)`. The inner `switch
(option_index)` of `case 0` is not followed by a `break`, so control goes on
into `case 'm'`. -/
def option_switch (getcwd : Option CStr) (c : Int) (option_index : Nat)
    (optarg : Option CStr) (s : Settings) : Parsed :=
  if c = 0 then
    if option_index = OPT_CWD then
      Parsed.next { s with cwd_prefix := getcwd, fn_glob := optarg }
    else if option_index = OPT_PRELOAD then
      Parsed.next { s with preload_path := optarg, fn_glob := optarg }
    else if option_index = OPT_SOCKET then
      Parsed.next { s with sock_path := optarg, fn_glob := optarg }
    else
      Parsed.usage (some "invalid option")
  else if c = ('m').toNat then
    Parsed.next { s with fn_glob := optarg }
  else if c = ('o').toNat then
    Parsed.next { s with output_path := optarg }
  else
    Parsed.usage none

/-- The macro `SOCK_PATH`. -/
def SOCK_PATH : CStr := "/tmp/wi-sock".toList

/-- The macro `SO_NAME`. -/
def SO_NAME : CStr := "libwatchit.so".toList

/-- The settings `main` holds when it enters the option loop: `sock_path =
SOCK_PATH`, `output_path = "/dev/stdout"`, `preload_path` set by
`asprintf("%s/%s", dirname(progdir), SO_NAME)` and `udata` all `NULL`;
`progdir` is the value of `dirname(progdir)`. -/
def initial_settings (progdir : CStr) : Settings :=
  { sock_path := some SOCK_PATH, output_path := some "/dev/stdout".toList,
    preload_path := some (progdir ++ ['/'] ++ SO_NAME), cwd_prefix := none, fn_glob := none }

/-! ## watchit.c: main, from the creation of the socket to exit -/

/-- The events of a run of `main` that matter for the channel address:
`unlink(sock_path)`, entering `create_socket(sock_path)`, `perror(msg)` and
`exit(code)`. -/
inductive Ev where
  | unlink (path : CStr)
  | create_socket (path : CStr)
  | perror (msg : String)
  | exit (code : Nat)
  deriving DecidableEq, Repr

/-- The outcomes of the calls `main` makes from `create_socket` on: `socket`,
`bind`, `listen`, `fork`, `execvp` (`none` when it replaces the process image
and so does not return), what `pselect`, `waitpid` and `accept` show
`handle_children`, and whether `fopen` in `write_results` succeeds. -/
structure MainEnv where
  socket_rc : Int
  bind_rc : Int
  listen_rc : Int
  fork_rc : Int
  execvp_rc : Option Int
  buf0 : List Char
  wakeups : List Wakeup
  fopen_ok : Bool

/-- The value `EXIT_FAILURE` of `<stdlib.h>`. -/
def EXIT_FAILURE : Nat := 1

/-- Embedding of the macro `handle_error(msg)` of `watchit.h`:
`do { perror(msg); exit(EXIT_FAILURE); } while (0)`. -/
def handle_error (msg : String) : List Ev := [Ev.perror msg, Ev.exit EXIT_FAILURE]

/-- Embedding of `create_socket(sock_path)`: the descriptor, or the message of
the `handle_error` it leaves through. -/
def create_socket (e : MainEnv) : Except String Int :=
  if e.socket_rc < 0 then Except.error "socket"
  else if e.bind_rc < 0 then Except.error "bind"
  else if e.listen_rc < 0 then Except.error "listen"
  else Except.ok e.socket_rc

/-- Embedding of `main` from `(void)unlink(sock_path)` ("Just in case") to
its end, as the trace of events; `sock_path` is the path after the pid was
appended, `s` the settings the option loop left. -/
def main_tail (fnmatch : CStr → CStr → Int → Int) (order : List CStr → List CStr)
    (path_max : Nat) (e : MainEnv) (s : Settings) (sock_path : CStr) : List Ev :=
  [Ev.unlink sock_path, Ev.create_socket sock_path] ++
  match create_socket e with
  | Except.error msg => handle_error msg
  | Except.ok sock =>
    if e.fork_rc = 0 then
      -- child
      match e.execvp_rc with
      | none => []
      | some rc => if rc < 0 then handle_error "execvp" else [Ev.unlink sock_path, Ev.exit 0]
    else if e.fork_rc = -1 then
      handle_error "fork"
    else
      -- parent
      match handle_children sock.toNat path_max e.buf0 g_hash_table_new e.wakeups with
      | Outcome.exited msg _ => handle_error msg
      | Outcome.blocked _ => []
      | Outcome.returned _ c =>
        if (write_results fnmatch order c.ht e.fopen_ok
              { fh := [], cwd_prefix := Settings.cwd_prefix s, fn_glob := s.fn_glob }).1 < 0 then
          handle_error "write_results"
        else
          [Ev.unlink sock_path, Ev.exit 0]

/-- The events of a trace that follow the entry into `create_socket`. -/
def after_create_socket : List Ev → List Ev
  | [] => []
  | Ev.create_socket _ :: t => t
  | _ :: t => after_create_socket t

/-! ## The wire between write_sock and read_line -/

/-- The outcomes of `read` on a connection whose peer reported the paths
`msgs` with `write_sock`, every `write` succeeding in full (`strlen(name)` and
1), and then closed it. -/
def wire : List CStr → List ReadEv
  | [] => []
  | s :: msgs =>
    (write_sock s (WriteRes.returned s.length) (WriteRes.returned 1)).sent.map ReadEv.byte ++
      wire msgs

/-- A report that holds the paths `keys` in this order, each on its own
newline-terminated line. -/
def report_lines : List CStr → List Char
  | [] => []
  | k :: ks => k ++ ['\n'] ++ report_lines ks

/-- The table after `handle_children` inserted the lines `ins` one after the
other, each paired with the connection it was read from. -/
def inserted (ins : List (Nat × CStr)) : GHashTable :=
  (ins.map Prod.snd).foldl g_hash_table_insert g_hash_table_new

/-! ## Properties of the preload library -/

/-- C8, as the code has it: `wrap_open` and `wrap_open64` read the mode with
`va_arg` before anything else and whatever the flags are. A call that passes
no third argument reaches the read from the empty argument list for every
value of the flags, and a call that passes one hands it to the real open for
every value of the flags and never reads from an empty list. -/
theorem wrap_open_reads_mode_unconditionally
    (orig_open orig_open64 : CStr → Int → Nat → Int) (w1 w2 : WriteRes)
    (name : CStr) (flags : Int) :
    wrap_open orig_open w1 w2 name flags [] = Variadic.va_arg_past_end ∧
      wrap_open64 orig_open64 w1 w2 name flags [] = Variadic.va_arg_past_end ∧
      (∀ (n1 n2 : Int) (mode : Nat) (rest : List Nat), ∃ r,
        wrap_open orig_open (WriteRes.returned n1) (WriteRes.returned n2) name flags
            (mode :: rest) = Variadic.ok r ∧
          r.rc = orig_open name flags mode) ∧
      (∀ (n1 n2 : Int) (mode : Nat) (rest : List Nat), ∃ r,
        wrap_open64 orig_open64 (WriteRes.returned n1) (WriteRes.returned n2) name flags
            (mode :: rest) = Variadic.ok r ∧
          r.rc = orig_open64 name flags mode) ∧
      (∀ (mode : Nat) (rest : List Nat),
        wrap_open orig_open w1 w2 name flags (mode :: rest) ≠ Variadic.va_arg_past_end ∧
          wrap_open64 orig_open64 w1 w2 name flags (mode :: rest) ≠
            Variadic.va_arg_past_end) := by
  refine ⟨rfl, rfl, ?_, ?_, ?_⟩
  · intro n1 n2 mode rest
    by_cases h : 0 ≤ orig_open name flags mode
    · by_cases h1 : n1 < 0
      · simp [wrap_open, va_arg, h, write_sock, h1]
      · by_cases h2 : n2 < 0 <;> simp [wrap_open, va_arg, h, write_sock, h1, h2]
    · simp [wrap_open, va_arg, h]
  · intro n1 n2 mode rest
    by_cases h : 0 ≤ orig_open64 name flags mode
    · by_cases h1 : n1 < 0
      · simp [wrap_open64, va_arg, h, write_sock, h1]
      · by_cases h2 : n2 < 0 <;> simp [wrap_open64, va_arg, h, write_sock, h1, h2]
    · simp [wrap_open64, va_arg, h]
  · intro mode rest
    constructor
    · simp only [wrap_open, va_arg]
      split
      · split <;> simp
      · simp
    · simp only [wrap_open64, va_arg]
      split
      · split <;> simp
      · simp

/-- C8 fails as stated: `open("/etc/hostname", O_RDONLY)` with no third
argument (flags 0 request no creation) makes both wrappers read a variadic
argument from the empty list. -/
theorem wrap_open_reads_absent_mode :
    wrap_open (fun _ _ _ => 3) (WriteRes.returned 13) (WriteRes.returned 1)
        "/etc/hostname".toList 0 [] = Variadic.va_arg_past_end ∧
      wrap_open64 (fun _ _ _ => 3) (WriteRes.returned 13) (WriteRes.returned 1)
        "/etc/hostname".toList 0 [] = Variadic.va_arg_past_end := by
  decide

/-! ## Properties of read_line -/

/-- The byte `a` never compares equal to the newline, whatever the other three
bytes of `ch` hold. -/
theorem ch_after_read_a_ne_newline (ch : Nat) :
    int_of_bits (ch_after_read ch 'a') ≠ int_of_char '\n' := by
  have ha : ('a').toNat = 97 := by decide
  have hn : ('\n').toNat = 10 := by decide
  unfold int_of_bits int_of_char ch_after_read
  rw [ha, hn]
  split_ifs <;> omega

/-- When the three upper bytes of `ch` are zero and `b` is a byte, `ch ==
terminator` for the newline holds exactly when `b` is the newline, and the
upper bytes stay zero. -/
theorem ch_after_read_clean (ch : Nat) (b : Char) (hch : ch < 256) (hb : b.toNat < 256) :
    (int_of_bits (ch_after_read ch b) = int_of_char '\n' ↔ b = '\n') ∧
      ch_after_read ch b < 256 := by
  have hn : ('\n').toNat = 10 := by decide
  have hdiv : ch / 256 = 0 := by omega
  have hval : ch_after_read ch b = b.toNat := by
    unfold ch_after_read
    rw [hdiv]
    omega
  refine ⟨?_, by omega⟩
  rw [hval]
  unfold int_of_bits int_of_char
  rw [hn]
  constructor
  · intro h
    have h10 : b.toNat = 10 := by
      split_ifs at h <;> omega
    have := Char.ofNat_toNat b
    rw [h10] at this
    exact this.symm
  · intro h
    subst h
    rw [hn]
    decide

/-- The stores of the loop when the descriptor delivers exactly as many bytes
as iterations are left and none compares equal to the terminator: one store
per byte, then the final NUL one past the last byte. -/
theorem read_line_loop_stores_full (t : Char) (bytes : List Char)
    (hno : ∀ b ∈ bytes, ∀ ch, int_of_bits (ch_after_read ch b) ≠ int_of_char t) :
    ∀ (i p : Nat) (n : Int) (ch : Nat) (buf : List Char) (rest : List ReadEv) (st : List Nat),
      (read_line_loop t bytes.length i p n ch buf (bytes.map ReadEv.byte ++ rest) st).stores =
        st ++ List.range' p bytes.length ++ [p + bytes.length] := by
  induction bytes with
  | nil =>
    intro i p n ch buf rest st
    simp [read_line_loop, read_line_finish]
  | cons c bs ih =>
    intro i p n ch buf rest st
    have hc : int_of_bits (ch_after_read ch c) ≠ int_of_char t := hno c (by simp) ch
    have hbs : ∀ b ∈ bs, ∀ ch, int_of_bits (ch_after_read ch b) ≠ int_of_char t :=
      fun b hb => hno b (by simp [hb])
    simp only [List.length_cons, List.map_cons, List.cons_append, read_line_loop, if_neg hc]
    rw [ih hbs]
    simp [List.range'_succ, Nat.add_assoc, Nat.add_comm 1]

/-- The loop on a complete line when the three upper bytes of `ch` are zero:
`s`, made of bytes other than the newline and shorter than the iterations
left, then the newline. The line lands in the buffer at the offset of `p`
followed by NUL, the call returns 1, and the input after the newline is left
unread. -/
theorem read_line_loop_line (s : List Char)
    (hs : ∀ b ∈ s, b.toNat < 256 ∧ b ≠ '\n') :
    ∀ (k i : Nat) (n : Int) (ch : Nat) (pre mid : List Char) (rest : List ReadEv)
      (st : List Nat),
      ch < 256 → s.length < k → s.length < mid.length →
      read_line_loop '\n' k i pre.length n ch (pre ++ mid)
          (s.map ReadEv.byte ++ ReadEv.byte '\n' :: rest) st =
        { rc := 1, buf := pre ++ s ++ NUL :: mid.drop (s.length + 1), rest := rest,
          stores := st ++ List.range' pre.length (s.length + 1) ++ [pre.length + s.length] } := by
  induction s with
  | nil =>
    intro k i n ch pre mid rest st hch hk hmid
    obtain ⟨k, rfl⟩ : ∃ j, k = j + 1 := ⟨k - 1, by simp at hk; omega⟩
    obtain ⟨m, mid, rfl⟩ : ∃ m mid1, mid = m :: mid1 := by
      cases mid with
      | nil => simp at hmid
      | cons m mid1 => exact ⟨m, mid1, rfl⟩
    have hnl := ((ch_after_read_clean ch '\n' hch (by decide)).1).2 rfl
    simp [read_line_loop, read_line_finish, List.range'_succ, hnl]
  | cons c cs ih =>
    intro k i n ch pre mid rest st hch hk hmid
    obtain ⟨k, rfl⟩ : ∃ j, k = j + 1 := ⟨k - 1, by simp at hk; omega⟩
    obtain ⟨m, mid, rfl⟩ : ∃ m mid1, mid = m :: mid1 := by
      cases mid with
      | nil => simp at hmid
      | cons m mid1 => exact ⟨m, mid1, rfl⟩
    have hcb := hs c (by simp)
    have hclean := ch_after_read_clean ch c hch hcb.1
    have hc : ¬ (int_of_bits (ch_after_read ch c) = int_of_char '\n') :=
      fun h => hcb.2 (hclean.1.1 h)
    have hcs : ∀ b ∈ cs, b.toNat < 256 ∧ b ≠ '\n' := fun b hb => hs b (by simp [hb])
    simp only [List.length_cons, Nat.add_lt_add_iff_right] at hk hmid
    simp only [List.map_cons, List.cons_append, read_line_loop, if_neg hc]
    have hset : (pre ++ m :: mid).set pre.length c = (pre ++ [c]) ++ mid := by
      simp [List.set_append]
    have hlen : pre.length + 1 = (pre ++ [c]).length := by simp
    rw [hset, hlen, ih hcs k (i + 1) 1 (ch_after_read ch c) (pre ++ [c]) mid rest
      (st ++ [pre.length]) hclean.2 hk hmid]
    simp [List.range'_succ, Nat.add_assoc, Nat.add_comm 1]

/-- A buffer that starts with a NUL-free string followed by NUL holds that
string. -/
theorem cstr_append_nul (s tl : List Char) (hs : NUL ∉ s) : cstr (s ++ NUL :: tl) = s := by
  induction s with
  | nil => simp [cstr, List.takeWhile]
  | cons c cs ih =>
    have hc : c ≠ NUL := fun h => hs (by simp [h])
    have hcs : NUL ∉ cs := fun h => hs (by simp [h])
    have hb : (c != NUL) = true := by simpa using hc
    have := ih hcs
    simp only [cstr] at this ⊢
    rw [List.cons_append, List.takeWhile_cons, hb, if_pos rfl, this]

/-- C10, at the buffer `handle_children` passes (`char buf[PATH_MAX]`,
`max_length = sizeof(buf)`): when the connection delivers `PATH_MAX` bytes
without a newline, `read_line` stores into `buf[0] .. buf[PATH_MAX - 1]` and
then writes the final NUL at index `PATH_MAX`, one past the end of the buffer;
so not every store is at an index below `max_length`. This does not depend on
what the uninitialised `ch` held. -/
theorem read_line_stores_nul_past_buffer (ch0 : Nat) :
    (read_line ch0 ((List.replicate PATH_MAX 'a').map ReadEv.byte) (List.replicate PATH_MAX 'x')
        PATH_MAX '\n').stores = List.range' 0 PATH_MAX ++ [PATH_MAX] ∧
      ¬ (∀ j ∈ (read_line ch0 ((List.replicate PATH_MAX 'a').map ReadEv.byte)
            (List.replicate PATH_MAX 'x') PATH_MAX '\n').stores, j < PATH_MAX) := by
  have hnl : ∀ b ∈ List.replicate PATH_MAX 'a', ∀ ch,
      int_of_bits (ch_after_read ch b) ≠ int_of_char '\n' := by
    intro b hb ch
    rw [List.eq_of_mem_replicate hb]
    exact ch_after_read_a_ne_newline ch
  have h := read_line_loop_stores_full '\n' (List.replicate PATH_MAX 'a') hnl 0 0 0 ch0
    (List.replicate PATH_MAX 'x') [] []
  simp only [List.length_replicate, List.append_nil, List.nil_append, Nat.zero_add] at h
  have hs : (read_line ch0 ((List.replicate PATH_MAX 'a').map ReadEv.byte)
      (List.replicate PATH_MAX 'x') PATH_MAX '\n').stores
        = List.range' 0 PATH_MAX ++ [PATH_MAX] := h
  refine ⟨hs, ?_⟩
  rw [hs]
  intro hall
  exact absurd (hall PATH_MAX (by simp)) (Nat.lt_irrefl _)

/-- What `write_sock` puts on the wire when both writes succeed in full. -/
theorem wire_cons (s : CStr) (msgs : List CStr) :
    wire (s :: msgs) = s.map ReadEv.byte ++ ReadEv.byte '\n' :: wire msgs := by
  have h : ¬ ((s.length : Int) < 0) := by omega
  simp [wire, write_sock, written, h, WriteSock.sent]

/-- One call of `read_line` on a wire that starts with the message `s`, when
the three upper bytes of the uninitialised `ch` happen to be zero: the call
returns 1, the buffer holds `s` followed by NUL, and exactly the bytes of `s`
and its newline are consumed. -/
theorem read_line_wire (ch0 : Nat) (s : CStr) (post : List CStr) (max_length : Nat)
    (buf : List Char) (hch : ch0 < 256) (hbuf : max_length ≤ buf.length)
    (hs : ∀ b ∈ s, b.toNat < 256 ∧ b ≠ '\n') (hnul : NUL ∉ s) (hlen : s.length < max_length) :
    read_line ch0 (wire (s :: post)) buf max_length '\n' =
        { rc := 1, buf := s ++ NUL :: buf.drop (s.length + 1), rest := wire post,
          stores := List.range' 0 (s.length + 1) ++ [s.length] } ∧
      cstr (read_line ch0 (wire (s :: post)) buf max_length '\n').buf = s := by
  have h := read_line_loop_line s hs max_length 0 0 ch0 [] buf (wire post) [] hch hlen
    (by omega)
  simp only [List.nil_append, List.length_nil, Nat.zero_add] at h
  have hcall : read_line ch0 (wire (s :: post)) buf max_length '\n' =
      { rc := 1, buf := s ++ NUL :: buf.drop (s.length + 1), rest := wire post,
        stores := List.range' 0 (s.length + 1) ++ [s.length] } := by
    rw [wire_cons]
    exact h
  refine ⟨hcall, ?_⟩
  rw [hcall]
  exact cstr_append_nul s _ hnul

/-- C5, on the code: the connection carries what `write_sock` emits for `/a`
and `/etc/hostname`, then closes, and `handle_children` calls `read_line` with
its `PATH_MAX` buffer. `read` sets one byte of the uninitialised `int ch` and
`ch == terminator` compares all four: when the other three hold anything but
zero (here the second byte holds 0x7f) no newline is ever recognised, and the
first call runs to the end of the stream, returns 0 and leaves both messages
and their newlines in `buf`. Only when the three bytes happen to be zero does
the first call return 1 with `/a` in `buf` and the second message unread. -/
theorem read_line_misses_newline :
    (read_line 32512 (wire ["/a".toList, "/etc/hostname".toList]) (List.replicate PATH_MAX 'x')
        PATH_MAX '\n').rc = 0 ∧
      cstr (read_line 32512 (wire ["/a".toList, "/etc/hostname".toList])
        (List.replicate PATH_MAX 'x') PATH_MAX '\n').buf = "/a\n/etc/hostname\n".toList ∧
      (read_line 32512 (wire ["/a".toList, "/etc/hostname".toList])
        (List.replicate PATH_MAX 'x') PATH_MAX '\n').rest = [] ∧
      (read_line 0 (wire ["/a".toList, "/etc/hostname".toList]) (List.replicate PATH_MAX 'x')
        PATH_MAX '\n').rc = 1 ∧
      cstr (read_line 0 (wire ["/a".toList, "/etc/hostname".toList])
        (List.replicate PATH_MAX 'x') PATH_MAX '\n').buf = "/a".toList ∧
      (read_line 0 (wire ["/a".toList, "/etc/hostname".toList])
        (List.replicate PATH_MAX 'x') PATH_MAX '\n').rest = wire ["/etc/hostname".toList] := by
  decide

/-! ## Properties of the result set and the report -/

/-- Inserting keeps the keys pairwise different. -/
theorem g_hash_table_insert_nodup (ht : GHashTable) (key : CStr) (h : ht.keys.Nodup) :
    (g_hash_table_insert ht key).keys.Nodup := by
  unfold g_hash_table_insert
  by_cases hk : key ∈ ht.keys
  · simpa [hk] using h
  · simp only [if_neg hk]
    exact List.Nodup.append h (by simp) (by simpa using hk)

/-- The keys after one insertion. -/
theorem mem_g_hash_table_insert (ht : GHashTable) (key s : CStr) :
    s ∈ (g_hash_table_insert ht key).keys ↔ s ∈ ht.keys ∨ s = key := by
  unfold g_hash_table_insert
  by_cases hk : key ∈ ht.keys
  · simp only [if_pos hk]
    constructor
    · exact fun h => Or.inl h
    · rintro (h | h)
      · exact h
      · exact h ▸ hk
  · simp [hk]

/-- The keys after a sequence of insertions: pairwise different, and exactly
the earlier keys and the inserted strings. -/
theorem foldl_g_hash_table_insert (ls : List CStr) :
    ∀ ht : GHashTable, ht.keys.Nodup →
      (ls.foldl g_hash_table_insert ht).keys.Nodup ∧
        ∀ s, s ∈ (ls.foldl g_hash_table_insert ht).keys ↔ s ∈ ht.keys ∨ s ∈ ls := by
  induction ls with
  | nil => intro ht h; simpa using h
  | cons l ls ih =>
    intro ht h
    obtain ⟨hnd, hmem⟩ := ih (g_hash_table_insert ht l) (g_hash_table_insert_nodup ht l h)
    refine ⟨hnd, fun s => ?_⟩
    rw [List.foldl_cons, hmem, mem_g_hash_table_insert, List.mem_cons, or_assoc]

/-- With no glob and no working directory the iterator appends the key and a
newline and touches nothing else. -/
theorem iterator_plain (fnmatch : CStr → CStr → Int → Int) (key : CStr) (fh : List Char) :
    iterator fnmatch key { fh := fh, cwd_prefix := none, fn_glob := none } =
      { fh := fh ++ (key ++ ['\n']), cwd_prefix := none, fn_glob := none } := by
  simp [iterator, glob_rejects, wants_prefix]

/-- The unfiltered, unprefixed iteration over keys writes one line per key. -/
theorem foldl_iterator_plain (fnmatch : CStr → CStr → Int → Int) (keys : List CStr) :
    ∀ fh : List Char,
      keys.foldl (fun u key => iterator fnmatch key u)
          { fh := fh, cwd_prefix := none, fn_glob := none } =
        { fh := fh ++ report_lines keys, cwd_prefix := none, fn_glob := none } := by
  induction keys with
  | nil => intro fh; simp [report_lines]
  | cons k ks ih =>
    intro fh
    rw [List.foldl_cons, iterator_plain, ih]
    simp [report_lines]

/-- C1: for every sequence of lines inserted into the result set, on whatever
connections and however often each, and for every order in which the table
hands out its keys, `write_results` with no glob and no cwd prefix returns 0
and writes a report that consists of newline-terminated lines, one per key
handed out, in which every inserted string occurs exactly once and no other
string occurs. -/
theorem write_results_emits_each_inserted_line_once
    (fnmatch : CStr → CStr → Int → Int) (order : List CStr → List CStr)
    (horder : ∀ l, (order l).Perm l) (ins : List (Nat × CStr)) (fh0 : List Char) :
    write_results fnmatch order (inserted ins) true
        { fh := fh0, cwd_prefix := none, fn_glob := none } =
        (0, some (report_lines (order (inserted ins).keys))) ∧
      (order (inserted ins).keys).Nodup ∧
      (∀ s, s ∈ ins.map Prod.snd →
        (order (inserted ins).keys).countP (fun k => decide (k = s)) = 1) ∧
      (∀ s, s ∉ ins.map Prod.snd →
        (order (inserted ins).keys).countP (fun k => decide (k = s)) = 0) := by
  obtain ⟨hnd, hmem⟩ := foldl_g_hash_table_insert (ins.map Prod.snd) g_hash_table_new
    (by simp [g_hash_table_new])
  have hnd2 : (order (inserted ins).keys).Nodup := ((horder _).nodup_iff).2 hnd
  have hmem2 : ∀ s, s ∈ order (inserted ins).keys ↔ s ∈ ins.map Prod.snd := by
    intro s
    rw [(horder _).mem_iff]
    have := hmem s
    simpa [g_hash_table_new, inserted] using this
  refine ⟨?_, hnd2, ?_, ?_⟩
  · simp only [write_results, g_hash_table_foreach, if_true]
    rw [foldl_iterator_plain]
    simp
  · intro s hs
    exact List.count_eq_one_of_mem hnd2 ((hmem2 s).2 hs)
  · intro s hs
    rw [List.countP_eq_zero]
    intro k hk hks
    exact hs ((hmem2 s).1 (of_decide_eq_true hks ▸ hk))

/-- C1 at the specification's example: `/a`, `/a` again on another connection,
then `/b`; the table hands its keys out in reverse. The report is `/b` and
`/a`, once each. -/
theorem write_results_emits_each_inserted_line_once_witness :
    write_results fnmatch_model List.reverse
        (inserted [(4, "/a".toList), (5, "/a".toList), (4, "/b".toList)]) true
        { fh := [], cwd_prefix := none, fn_glob := none } =
        (0, some "/b\n/a\n".toList) ∧
      (List.reverse (inserted [(4, "/a".toList), (5, "/a".toList), (4, "/b".toList)]).keys).Nodup ∧
      (∀ s, s ∈ [(4, "/a".toList), (5, "/a".toList), (4, "/b".toList)].map Prod.snd →
        (List.reverse
          (inserted [(4, "/a".toList), (5, "/a".toList), (4, "/b".toList)]).keys).countP
            (fun k => decide (k = s)) = 1) ∧
      (∀ s, s ∉ [(4, "/a".toList), (5, "/a".toList), (4, "/b".toList)].map Prod.snd →
        (List.reverse
          (inserted [(4, "/a".toList), (5, "/a".toList), (4, "/b".toList)]).keys).countP
            (fun k => decide (k = s)) = 0) :=
  have h := write_results_emits_each_inserted_line_once fnmatch_model List.reverse
    (fun l => List.reverse_perm l) [(4, "/a".toList), (5, "/a".toList), (4, "/b".toList)] []
  ⟨by decide, h.2.1, h.2.2.1, h.2.2.2⟩

/-- C4: for every stored path `p`, optional glob `g` and optional working
directory `d`, the text `iterator` appends to the report for `p` is the
reference text and the filter settings stay as they were. In particular the
glob `*.txt` over the set of `/x/a.txt` and `/x/b.log` leaves only `/x/a.txt`
in the report (in either iteration order), and with `d` = `/home/u` the path
`rel/file` is written as `/home/u/rel/file` while `/abs/file` is written
unchanged. -/
theorem iterator_writes_reference (fnmatch : CStr → CStr → Int → Int)
    (g d : Option CStr) (p : CStr) (fh : List Char) :
    iterator fnmatch p { fh := fh, cwd_prefix := d, fn_glob := g } =
        { fh := fh ++ report_reference fnmatch g d p, cwd_prefix := d, fn_glob := g } ∧
      write_results fnmatch_model id
          (inserted [(4, "/x/a.txt".toList), (4, "/x/b.log".toList)]) true
          { fh := [], cwd_prefix := none, fn_glob := some "*.txt".toList } =
        (0, some "/x/a.txt\n".toList) ∧
      write_results fnmatch_model List.reverse
          (inserted [(4, "/x/a.txt".toList), (4, "/x/b.log".toList)]) true
          { fh := [], cwd_prefix := none, fn_glob := some "*.txt".toList } =
        (0, some "/x/a.txt\n".toList) ∧
      (iterator fnmatch_model "rel/file".toList
          { fh := [], cwd_prefix := some "/home/u".toList, fn_glob := none }).fh =
        "/home/u/rel/file\n".toList ∧
      (iterator fnmatch_model "/abs/file".toList
          { fh := [], cwd_prefix := some "/home/u".toList, fn_glob := none }).fh =
        "/abs/file\n".toList := by
  refine ⟨?_, by decide, by decide, by decide, by decide⟩
  cases g with
  | none =>
    cases d with
    | none => simp [iterator, glob_rejects, wants_prefix, report_reference, report_line]
    | some dir =>
      cases p with
      | nil =>
        simp [iterator, glob_rejects, wants_prefix, report_reference, report_line, NUL]
      | cons c cs =>
        by_cases hc : c = '/' <;>
          simp [iterator, glob_rejects, wants_prefix, report_reference, report_line, hc]
  | some pat =>
    by_cases hm : fnmatch pat p 0 = 0
    · cases d with
      | none => simp [iterator, glob_rejects, wants_prefix, report_reference, report_line, hm]
      | some dir =>
        cases p with
        | nil =>
          simp [iterator, glob_rejects, wants_prefix, report_reference, report_line, NUL, hm]
        | cons c cs =>
          by_cases hc : c = '/'
          · subst hc
            simp [iterator, glob_rejects, wants_prefix, report_reference, report_line, hm]
          · simp [iterator, glob_rejects, wants_prefix, report_reference, report_line, hc, hm]
    · simp [iterator, glob_rejects, report_reference, hm]

/-! ## Properties of the option loop -/

/-- C9, on the code: `getopt_long` returns `OPT_PRELOAD` (3) for `--preload`
and `OPT_SOCKET` (4) for `--socket`, values the outer `switch (c)` has no case
for, so both options end in `usage(NULL)` and set nothing; and `--cwd` runs on
from `case 0` into `case 'm'`, so a glob set by an earlier `--match` is
replaced by `optarg`, which is `NULL` for an option without argument. Only
`--match` and `--output` update exactly the setting they name. -/
theorem option_switch_preload_socket_usage_cwd_clears_glob :
    option_switch (some "/home/u".toList) (getopt_long_val OPT_PRELOAD) OPT_PRELOAD
        (some "/x/lib.so".toList) (initial_settings "/usr/bin".toList) = Parsed.usage none ∧
      option_switch (some "/home/u".toList) (getopt_long_val OPT_SOCKET) OPT_SOCKET
        (some "/tmp/s".toList) (initial_settings "/usr/bin".toList) = Parsed.usage none ∧
      option_switch (some "/home/u".toList) (getopt_long_val OPT_CWD) OPT_CWD none
        { initial_settings "/usr/bin".toList with fn_glob := some "*.txt".toList } =
        Parsed.next { initial_settings "/usr/bin".toList with
                        cwd_prefix := some "/home/u".toList, fn_glob := none } ∧
      option_switch (some "/home/u".toList) (getopt_long_val OPT_MATCH) OPT_MATCH
        (some "*.txt".toList) (initial_settings "/usr/bin".toList) =
        Parsed.next { initial_settings "/usr/bin".toList with fn_glob := some "*.txt".toList } ∧
      option_switch (some "/home/u".toList) (getopt_long_val OPT_OUTPUT) OPT_OUTPUT
        (some "out.txt".toList) (initial_settings "/usr/bin".toList) =
        Parsed.next { initial_settings "/usr/bin".toList with
                        output_path := some "out.txt".toList } := by
  decide

/-! ## Properties of handle_children -/

/-- Servicing one descriptor never changes the flag `done`. -/
theorem service_fd_done (sock path_max : Nat) (w : Wakeup) (i : Nat) (s s1 : Collector)
    (h : service_fd sock path_max w i s = Except.ok s1) : s1.done = s.done := by
  unfold service_fd at h
  split at h
  · split at h
    · cases h; rfl
    · cases h; rfl
    · cases h
  · simp only at h
    split at h
    · cases h; rfl
    · split at h
      · cases h; rfl
      · cases h; rfl

/-- Servicing the ready descriptors never changes the flag `done`. -/
theorem service_fds_done (sock path_max : Nat) (w : Wakeup) (is : List Nat) :
    ∀ s s1 : Collector, service_fds sock path_max w is s = Except.ok s1 → s1.done = s.done := by
  induction is with
  | nil =>
    intro s s1 h
    simp only [service_fds] at h
    cases h
    rfl
  | cons i is ih =>
    intro s s1 h
    simp only [service_fds] at h
    split at h
    · split at h
      · rename_i s2 hs2
        rw [ih s2 s1 h, service_fd_done sock path_max w i s s2 hs2]
      · cases h
    · exact ih s s1 h

/-- C3, as the code has it: an iteration of the loop that starts with `done`
unset ends the loop exactly when `errno == EINTR` held after its `pselect`.
In that case the descriptors this `pselect` reported ready are serviced once
and `handle_children` returns 0 in the state so reached, whatever connections
that state still holds open; otherwise the loop goes on to the next
`pselect` from that state. -/
theorem handle_children_loop_exit_iff_eintr (sock path_max : Nat) (w : Wakeup)
    (ws : List Wakeup) (s s2 : Collector) (hdone : s.done = false)
    (hwait : w.eintr = true → 0 ≤ w.waitpid)
    (hsvc : service_fds sock path_max w (List.range FD_SETSIZE)
        (if w.eintr then { s with done := true } else s) = Except.ok s2) :
    handle_children_loop sock path_max (w :: ws) s =
      if w.eintr then Outcome.returned 0 s2 else handle_children_loop sock path_max ws s2 := by
  have hd := service_fds_done sock path_max w _ _ s2 hsvc
  cases he : w.eintr with
  | true =>
    have hw : ¬ (w.waitpid < 0) := by have := hwait he; omega
    simp only [he, if_true] at hsvc hd
    simp [handle_children_loop, he, hw, hsvc, hd]
  | false =>
    simp only [he] at hsvc hd
    simp only [Bool.false_eq_true, if_false] at hsvc hd
    simp [handle_children_loop, he, hsvc, hd, hdone]

/-- C3 fails as stated. A traced process connects (descriptor 4) and writes
`/a` and `/b`; then the root process exits and `pselect` is interrupted
(`errno == EINTR`, the descriptor sets left as passed). The iteration reads
one line from descriptor 4 (the upper bytes of `ch` being zero in that call,
so that the newline is seen) and the loop ends: `handle_children` returns 0
while connection 4 is still open and the line `/b`, written before the loop
ended, is unread and missing from the result set. -/
theorem handle_children_returns_with_open_connection :
    (handle_children 3 PATH_MAX (List.replicate PATH_MAX 'x') g_hash_table_new
        [ { read_fd_set := [3], eintr := false, waitpid := 0,
            accept := Accept.conn 4 ("/a\n/b\n".toList.map ReadEv.byte), ch0 := fun _ => 0 },
          { read_fd_set := [3, 4], eintr := true, waitpid := 1234,
            accept := Accept.eagain, ch0 := fun _ => 0 } ]).return_value = some 0 ∧
      open_connections 3
        (handle_children 3 PATH_MAX (List.replicate PATH_MAX 'x') g_hash_table_new
          [ { read_fd_set := [3], eintr := false, waitpid := 0,
              accept := Accept.conn 4 ("/a\n/b\n".toList.map ReadEv.byte), ch0 := fun _ => 0 },
            { read_fd_set := [3, 4], eintr := true, waitpid := 1234,
              accept := Accept.eagain, ch0 := fun _ => 0 } ]).state = [4] ∧
      pending
        (handle_children 3 PATH_MAX (List.replicate PATH_MAX 'x') g_hash_table_new
          [ { read_fd_set := [3], eintr := false, waitpid := 0,
              accept := Accept.conn 4 ("/a\n/b\n".toList.map ReadEv.byte), ch0 := fun _ => 0 },
            { read_fd_set := [3, 4], eintr := true, waitpid := 1234,
              accept := Accept.eagain, ch0 := fun _ => 0 } ]).state.conns 4 = "/b\n".toList.map ReadEv.byte ∧
      (handle_children 3 PATH_MAX (List.replicate PATH_MAX 'x') g_hash_table_new
          [ { read_fd_set := [3], eintr := false, waitpid := 0,
              accept := Accept.conn 4 ("/a\n/b\n".toList.map ReadEv.byte), ch0 := fun _ => 0 },
            { read_fd_set := [3, 4], eintr := true, waitpid := 1234,
              accept := Accept.eagain, ch0 := fun _ => 0 } ]).state.ht.keys = ["/a".toList] := by
  decide

/-- C3 as the code has it, at a concrete iteration: with
connection 4 open and two lines pending on it, an interrupted `pselect` makes
the loop read one line and return. -/
theorem handle_children_loop_exit_iff_eintr_witness :
    handle_children_loop 3 PATH_MAX
        [ { read_fd_set := [3, 4], eintr := true, waitpid := 1234, accept := Accept.eagain, ch0 := fun _ => 0 } ]
        { active_fd_set := [3, 4], buf := List.replicate PATH_MAX 'x', ht := g_hash_table_new,
          done := false, conns := [(4, "/a\n/b\n".toList.map ReadEv.byte)], closed := [] } =
      if (Wakeup.mk [3, 4] true 1234 Accept.eagain (fun _ => 0)).eintr then
        Outcome.returned 0
          { active_fd_set := [3, 4], buf := "/a".toList ++ NUL :: List.replicate (PATH_MAX - 3) 'x',
            ht := { keys := ["/a".toList] }, done := true,
            conns := [(4, "/b\n".toList.map ReadEv.byte)], closed := [] }
      else
        handle_children_loop 3 PATH_MAX []
          { active_fd_set := [3, 4], buf := "/a".toList ++ NUL :: List.replicate (PATH_MAX - 3) 'x',
            ht := { keys := ["/a".toList] }, done := true,
            conns := [(4, "/b\n".toList.map ReadEv.byte)], closed := [] } :=
  handle_children_loop_exit_iff_eintr 3 PATH_MAX
    { read_fd_set := [3, 4], eintr := true, waitpid := 1234, accept := Accept.eagain, ch0 := fun _ => 0 } []
    { active_fd_set := [3, 4], buf := List.replicate PATH_MAX 'x', ht := g_hash_table_new,
      done := false, conns := [(4, "/a\n/b\n".toList.map ReadEv.byte)], closed := [] }
    { active_fd_set := [3, 4], buf := "/a".toList ++ NUL :: List.replicate (PATH_MAX - 3) 'x',
      ht := { keys := ["/a".toList] }, done := true,
      conns := [(4, "/b\n".toList.map ReadEv.byte)], closed := [] }
    (by decide) (by decide) (by rfl)

/-- C6, as the code has it: a read error on an accepted connection
(`read_line` returns -1) and end of stream (`read_line` returns 0) both insert
nothing into the result set and do not abort the run, but only end of stream
closes the connection and removes it from the active descriptor set; after a
read error the connection is neither closed nor removed. -/
theorem service_fd_read_error_keeps_connection (sock path_max : Nat) (w : Wakeup) (i : Nat)
    (s_err s_eof : Collector) (hi : i ≠ sock)
    (herr : (read_line (w.ch0 i) (pending s_err.conns i) s_err.buf path_max '\n').rc = -1)
    (heof : (read_line (w.ch0 i) (pending s_eof.conns i) s_eof.buf path_max '\n').rc = 0) :
    service_fd sock path_max w i s_err =
        Except.ok
          { active_fd_set := s_err.active_fd_set,
            buf := (read_line (w.ch0 i) (pending s_err.conns i) s_err.buf path_max '\n').buf,
            ht := s_err.ht, done := s_err.done,
            conns := consume s_err.conns i
              (read_line (w.ch0 i) (pending s_err.conns i) s_err.buf path_max '\n').rest,
            closed := s_err.closed } ∧
      service_fd sock path_max w i s_eof =
        Except.ok
          { active_fd_set := FD_CLR i s_eof.active_fd_set,
            buf := (read_line (w.ch0 i) (pending s_eof.conns i) s_eof.buf path_max '\n').buf,
            ht := s_eof.ht, done := s_eof.done,
            conns := consume s_eof.conns i
              (read_line (w.ch0 i) (pending s_eof.conns i) s_eof.buf path_max '\n').rest,
            closed := s_eof.closed ++ [i] } := by
  constructor
  · simp [service_fd, hi, herr]
  · simp [service_fd, hi, heof]

/-- C6 as the code has it, at a concrete state: descriptor 4 is an accepted
connection; in the first state its next `read` fails, in the second its peer
has closed it. -/
theorem service_fd_read_error_keeps_connection_witness :
    service_fd 3 PATH_MAX
        { read_fd_set := [4], eintr := false, waitpid := 0, accept := Accept.eagain, ch0 := fun _ => 0 } 4
        { active_fd_set := [3, 4], buf := List.replicate PATH_MAX 'x', ht := g_hash_table_new,
          done := false, conns := [(4, [ReadEv.error])], closed := [] } =
        Except.ok
          { active_fd_set := [3, 4],
            buf := (read_line 0 (pending [(4, [ReadEv.error])] 4) (List.replicate PATH_MAX 'x')
              PATH_MAX '\n').buf,
            ht := g_hash_table_new, done := false,
            conns := consume [(4, [ReadEv.error])] 4
              (read_line 0 (pending [(4, [ReadEv.error])] 4) (List.replicate PATH_MAX 'x')
                PATH_MAX '\n').rest,
            closed := [] } ∧
      service_fd 3 PATH_MAX
        { read_fd_set := [4], eintr := false, waitpid := 0, accept := Accept.eagain, ch0 := fun _ => 0 } 4
        { active_fd_set := [3, 4], buf := List.replicate PATH_MAX 'x', ht := g_hash_table_new,
          done := false, conns := [(4, [])], closed := [] } =
        Except.ok
          { active_fd_set := FD_CLR 4 [3, 4],
            buf := (read_line 0 (pending [(4, [])] 4) (List.replicate PATH_MAX 'x')
              PATH_MAX '\n').buf,
            ht := g_hash_table_new, done := false,
            conns := consume [(4, [])] 4
              (read_line 0 (pending [(4, [])] 4) (List.replicate PATH_MAX 'x') PATH_MAX '\n').rest,
            closed := [] ++ [4] } :=
  service_fd_read_error_keeps_connection 3 PATH_MAX
    { read_fd_set := [4], eintr := false, waitpid := 0, accept := Accept.eagain, ch0 := fun _ => 0 } 4
    { active_fd_set := [3, 4], buf := List.replicate PATH_MAX 'x', ht := g_hash_table_new,
      done := false, conns := [(4, [ReadEv.error])], closed := [] }
    { active_fd_set := [3, 4], buf := List.replicate PATH_MAX 'x', ht := g_hash_table_new,
      done := false, conns := [(4, [])], closed := [] }
    (by decide) (by decide) (by decide)

/-- C6 fails as stated. Descriptor 4 is an accepted connection whose next
`read` fails: after `handle_children` serviced it, descriptor 4 is still in
the active descriptor set and was not closed, whereas at end of stream it is
removed and closed. -/
theorem service_fd_read_error_not_closed :
    ((service_fd 3 PATH_MAX
        { read_fd_set := [4], eintr := false, waitpid := 0, accept := Accept.eagain, ch0 := fun _ => 0 } 4
        { active_fd_set := [3, 4], buf := List.replicate PATH_MAX 'x', ht := g_hash_table_new,
          done := false, conns := [(4, [ReadEv.error])], closed := [] }).toOption.map
        (fun s => (s.active_fd_set, s.closed))) = some ([3, 4], []) ∧
      ((service_fd 3 PATH_MAX
        { read_fd_set := [4], eintr := false, waitpid := 0, accept := Accept.eagain, ch0 := fun _ => 0 } 4
        { active_fd_set := [3, 4], buf := List.replicate PATH_MAX 'x', ht := g_hash_table_new,
          done := false, conns := [(4, [])], closed := [] }).toOption.map
        (fun s => (s.active_fd_set, s.closed))) = some ([3], [4]) := by
  decide

/-! ## Properties of the exit paths of main -/

/-- C7, as the code has it: after `create_socket` was entered, the supervisor
unlinks the channel address only on the path that ends in the final
`exit(0)`. Every path through `handle_error` (failure of `socket`, `bind` or
`listen`, of `fork`, of `accept` or `waitpid` inside `handle_children`, of
`write_results`) prints the message and exits with `EXIT_FAILURE` without
unlinking the address. -/
theorem main_unlinks_only_before_exit_zero (fnmatch : CStr → CStr → Int → Int)
    (order : List CStr → List CStr) (path_max : Nat) (e : MainEnv) (s : Settings)
    (sock_path : CStr) :
    (Ev.exit 0 ∈ main_tail fnmatch order path_max e s sock_path →
        after_create_socket (main_tail fnmatch order path_max e s sock_path) =
          [Ev.unlink sock_path, Ev.exit 0]) ∧
      (Ev.exit EXIT_FAILURE ∈ main_tail fnmatch order path_max e s sock_path →
        ∃ msg, after_create_socket (main_tail fnmatch order path_max e s sock_path) =
          [Ev.perror msg, Ev.exit EXIT_FAILURE]) ∧
      (∀ msg, create_socket e = Except.error msg →
        after_create_socket (main_tail fnmatch order path_max e s sock_path) =
          handle_error msg) ∧
      (∀ sock, create_socket e = Except.ok sock → e.fork_rc = -1 →
        after_create_socket (main_tail fnmatch order path_max e s sock_path) =
          handle_error "fork") ∧
      (∀ sock msg c, create_socket e = Except.ok sock → e.fork_rc ≠ 0 → e.fork_rc ≠ -1 →
        handle_children sock.toNat path_max e.buf0 g_hash_table_new e.wakeups =
          Outcome.exited msg c →
        after_create_socket (main_tail fnmatch order path_max e s sock_path) =
          handle_error msg) ∧
      (∀ sock rc c, create_socket e = Except.ok sock → e.fork_rc ≠ 0 → e.fork_rc ≠ -1 →
        handle_children sock.toNat path_max e.buf0 g_hash_table_new e.wakeups =
          Outcome.returned rc c →
        e.fopen_ok = false →
        after_create_socket (main_tail fnmatch order path_max e s sock_path) =
          handle_error "write_results") := by
  have key : ∀ t : List Ev,
      after_create_socket ([Ev.unlink sock_path, Ev.create_socket sock_path] ++ t) = t := by
    intro t
    simp [after_create_socket]
  have hshape : ∀ t : List Ev,
      (t = [] ∨ t = [Ev.unlink sock_path, Ev.exit 0] ∨ ∃ msg, t = handle_error msg) →
      (Ev.exit 0 ∈ [Ev.unlink sock_path, Ev.create_socket sock_path] ++ t →
          t = [Ev.unlink sock_path, Ev.exit 0]) ∧
        (Ev.exit EXIT_FAILURE ∈ [Ev.unlink sock_path, Ev.create_socket sock_path] ++ t →
          ∃ msg, t = [Ev.perror msg, Ev.exit EXIT_FAILURE]) := by
    intro t ht
    rcases ht with rfl | rfl | ⟨msg, rfl⟩
    · simp
    · simp [EXIT_FAILURE]
    · simp [handle_error, EXIT_FAILURE]
  have hcases : ∃ t : List Ev,
      main_tail fnmatch order path_max e s sock_path =
          [Ev.unlink sock_path, Ev.create_socket sock_path] ++ t ∧
        (t = [] ∨ t = [Ev.unlink sock_path, Ev.exit 0] ∨ ∃ msg, t = handle_error msg) := by
    unfold main_tail
    refine ⟨_, rfl, ?_⟩
    split
    · exact Or.inr (Or.inr ⟨_, rfl⟩)
    · split
      · split
        · exact Or.inl rfl
        · split
          · exact Or.inr (Or.inr ⟨_, rfl⟩)
          · exact Or.inr (Or.inl rfl)
      · split
        · exact Or.inr (Or.inr ⟨_, rfl⟩)
        · split
          · exact Or.inr (Or.inr ⟨_, rfl⟩)
          · exact Or.inl rfl
          · split
            · exact Or.inr (Or.inr ⟨_, rfl⟩)
            · exact Or.inr (Or.inl rfl)
  obtain ⟨t, ht, hform⟩ := hcases
  refine ⟨?_, ?_, ?_, ?_, ?_, ?_⟩
  · rw [ht, key]
    exact (hshape t hform).1
  · rw [ht, key]
    exact (hshape t hform).2
  · intro msg hmsg
    simp [main_tail, hmsg, after_create_socket]
  · intro sock hsock hfork
    simp [main_tail, hsock, hfork, after_create_socket]
  · intro sock msg c hsock hf0 hf1 hhc
    simp [main_tail, hsock, hf0, hf1, hhc, after_create_socket]
  · intro sock rc c hsock hf0 hf1 hhc hfopen
    simp [main_tail, hsock, hf0, hf1, hhc, hfopen, after_create_socket, write_results]

/-- The run in which every call succeeds and the root process exits at the
first `pselect`: the supervisor unlinks the channel address and exits with 0. -/
theorem main_normal_completion_unlinks :
    main_tail fnmatch_model id PATH_MAX
        { socket_rc := 3, bind_rc := 0, listen_rc := 0, fork_rc := 4243, execvp_rc := none,
          buf0 := List.replicate PATH_MAX 'x',
          wakeups := [ { read_fd_set := [3], eintr := true, waitpid := 4243,
                         accept := Accept.eagain, ch0 := fun _ => 0 } ],
          fopen_ok := true }
        (initial_settings "/usr/bin".toList) "/tmp/wi-sock.4242".toList =
      [Ev.unlink "/tmp/wi-sock.4242".toList, Ev.create_socket "/tmp/wi-sock.4242".toList,
        Ev.unlink "/tmp/wi-sock.4242".toList, Ev.exit 0] := by
  decide

/-- C7 fails as stated. `socket`, `bind`, `listen` and `fork` succeed, so the
channel address exists; the root process exits, `handle_children` returns,
and `fopen` in `write_results` fails. The supervisor prints the error and
exits with `EXIT_FAILURE`, and no `unlink` of the channel address follows the
entry into `create_socket`. -/
theorem main_write_results_failure_leaves_address :
    main_tail fnmatch_model id PATH_MAX
        { socket_rc := 3, bind_rc := 0, listen_rc := 0, fork_rc := 4243, execvp_rc := none,
          buf0 := List.replicate PATH_MAX 'x',
          wakeups := [ { read_fd_set := [3], eintr := true, waitpid := 4243,
                         accept := Accept.eagain, ch0 := fun _ => 0 } ],
          fopen_ok := false }
        (initial_settings "/usr/bin".toList) "/tmp/wi-sock.4242".toList =
        [Ev.unlink "/tmp/wi-sock.4242".toList, Ev.create_socket "/tmp/wi-sock.4242".toList,
          Ev.perror "write_results", Ev.exit EXIT_FAILURE] ∧
      Ev.unlink "/tmp/wi-sock.4242".toList ∉
        after_create_socket
          (main_tail fnmatch_model id PATH_MAX
            { socket_rc := 3, bind_rc := 0, listen_rc := 0, fork_rc := 4243, execvp_rc := none,
              buf0 := List.replicate PATH_MAX 'x',
              wakeups := [ { read_fd_set := [3], eintr := true, waitpid := 4243,
                             accept := Accept.eagain, ch0 := fun _ => 0 } ],
              fopen_ok := false }
            (initial_settings "/usr/bin".toList) "/tmp/wi-sock.4242".toList) := by
  decide

end Watchit
